import Mathlib

/-!
Shallow embedding of the `ezty` crate (`src/lib.rs`, `src/any_debug.rs`,
`src/pretty_impl.rs`, `src/pretty.expr.rs`) together with proofs about it.

Rust string slices are modelled as lists of characters.  A Rust type is
modelled by the data this library can observe of it: the unique
compiler-assigned key behind `std::any::TypeId` (distinct types of one
build carry distinct keys), the fully qualified path returned by
`std::any::type_name`, and the size and alignment of the type.  The
address of a monomorphized function, which `NonStaticTypeId` relies on,
is link-time implementation-defined, so the embedding takes the address
assignment as an explicit parameter.
-/

namespace Ezty

/-- A Rust `&str`, modelled as a list of characters. -/
abbrev Str := List Char

/-- A Rust type as observed by the library: `key` models the unique
identity behind `std::any::TypeId`, `path` the raw fully qualified name
`std::any::type_name` returns, `size` and `align` its memory layout. -/
structure RustType where
  key : Nat
  path : Str
  size : Nat
  align : Nat
deriving DecidableEq, Repr

/-! ## Name prettifier (`src/pretty_impl.rs`, `src/pretty.expr.rs`) -/

/-- The ordered `(long path, short alias)` table included from
`src/pretty.expr.rs` into the body of `pretty`. -/
def prettyExpr : List (Str × Str) :=
  [ ("alloc::boxed::".toList, "Box".toList),
    ("alloc::collections::binary_heap::".toList, "BinaryHeap".toList),
    ("alloc::collections::btree::map::".toList, "BTreeMap".toList),
    ("alloc::collections::btree::set::".toList, "BTreeSet".toList),
    ("alloc::collections::linked_list::".toList, "LinkedList".toList),
    ("alloc::collections::vec_deque::".toList, "VecDeque".toList),
    ("alloc::sync::".toList, "Arc".toList),
    ("alloc::vec::".toList, "Vec".toList),
    ("core::cell::".toList, "Cell".toList),
    ("core::cell::".toList, "RefCell".toList),
    ("core::option::".toList, "Option".toList),
    ("core::result::".toList, "Result".toList),
    ("std::collections::hash::map::".toList, "HashMap".toList),
    ("std::collections::hash::set::".toList, "HashSet".toList),
    ("std::sync::rwlock::".toList, "RwLock".toList) ]

/-- The loop body of `pretty`: scan the pairs in order; when `bad` is a
literal prefix of the input and the remainder after stripping `bad`
begins with `good`, return that remainder; otherwise keep scanning, and
return the input unchanged when the list is exhausted. -/
def prettyGo : List (Str × Str) → Str → Str
  | [], name => name
  | (bad, good) :: rest, name =>
    if bad.isPrefixOf name then
      let stripped := name.drop bad.length
      if good.isPrefixOf stripped then stripped
      else prettyGo rest name
    else prettyGo rest name

/-- `pub fn pretty(name: &str) -> &str` from `src/pretty_impl.rs`. -/
def pretty (name : Str) : Str := prettyGo prettyExpr name

/-- A table pair fires on `name` when its long path is a literal prefix
of `name` and the remainder after stripping it begins with the alias. -/
def matchesPair (name : Str) (p : Str × Str) : Bool :=
  p.1.isPrefixOf name && p.2.isPrefixOf (name.drop p.1.length)

/-- The specification's description of `pretty`: the remainder for the
first pair of the table satisfying both conditions, else the input
unchanged.  Stated from the spec's words, to be compared with `pretty`. -/
def prettySpec (name : Str) : Str :=
  match prettyExpr.find? (matchesPair name) with
  | some p => name.drop p.1.length
  | none => name

/-! ## Type identity (`src/lib.rs`) -/

/-- `std::any::TypeId`: an opaque token, unique per type within one
build; `key` models that unique identity. -/
structure StdTypeId where
  key : Nat
deriving DecidableEq, Repr

/-- `std::any::TypeId::of::<T>()`. -/
def StdTypeId.of (T : RustType) : StdTypeId := ⟨T.key⟩

/-- Equality of `std::any::TypeId`, on the unique identity. -/
def StdTypeId.beq (a b : StdTypeId) : Bool := a.key == b.key

/-- Ordering of `std::any::TypeId`: some fixed total order on the
opaque identities. -/
def StdTypeId.cmp (a b : StdTypeId) : Ordering := compare a.key b.key

/-- The data `Hash for std::any::TypeId` feeds the hasher. -/
def StdTypeId.hashData (s : StdTypeId) : List Nat := [s.key]

/-- `pub struct NonStaticTypeId(usize)` from `src/lib.rs`. -/
structure NonStaticTypeId where
  addr : Nat
deriving DecidableEq, Repr

/-- `NonStaticTypeId::of::<T>() = Self(Self::of::<T> as usize)`: the
address of the per-`T` monomorphized function.  Addresses are fixed at
link time and implementation-defined, so the address assignment `addr`
is a parameter of the embedding. -/
def NonStaticTypeId.of (addr : RustType → Nat) (T : RustType) : NonStaticTypeId :=
  ⟨addr T⟩

/-- Derived `PartialEq` on `NonStaticTypeId`. -/
def NonStaticTypeId.beq (a b : NonStaticTypeId) : Bool := a.addr == b.addr

/-- Derived `Ord` on `NonStaticTypeId`. -/
def NonStaticTypeId.cmp (a b : NonStaticTypeId) : Ordering := compare a.addr b.addr

/-- The data derived `Hash` on `NonStaticTypeId` feeds the hasher. -/
def NonStaticTypeId.hashData (n : NonStaticTypeId) : List Nat := [n.addr]

/-- `pub enum TypeId { Std(StdTypeId), NonStatic(NonStaticTypeId) }`. -/
inductive TypeId where
  | Std (t : StdTypeId)
  | NonStatic (t : NonStaticTypeId)
deriving DecidableEq, Repr

/-- `TypeId::of::<T>() = Self::Std(StdTypeId::of::<T>())`. -/
def TypeId.of (T : RustType) : TypeId := .Std (StdTypeId.of T)

/-- `TypeId::of_every::<T>() = Self::NonStatic(NonStaticTypeId::of::<T>())`. -/
def TypeId.of_every (addr : RustType → Nat) (T : RustType) : TypeId :=
  .NonStatic (NonStaticTypeId.of addr T)

/-- Derived `PartialEq` on `TypeId`: equal constructors with equal
payloads; different constructors are never equal. -/
def TypeId.beq : TypeId → TypeId → Bool
  | .Std a, .Std b => a.beq b
  | .NonStatic a, .NonStatic b => a.beq b
  | _, _ => false

/-- Derived `Ord` on `TypeId`: declaration order of the constructors
first (`Std` before `NonStatic`), payload order within a constructor. -/
def TypeId.cmp : TypeId → TypeId → Ordering
  | .Std a, .Std b => a.cmp b
  | .Std _, .NonStatic _ => .lt
  | .NonStatic _, .Std _ => .gt
  | .NonStatic a, .NonStatic b => a.cmp b

/-- The data derived `Hash` on `TypeId` feeds the hasher: the
constructor discriminant, then the payload's data. -/
def TypeId.hashData : TypeId → List Nat
  | .Std s => 0 :: s.hashData
  | .NonStatic n => 1 :: n.hashData

/-- `pub fn std(&self) -> Option<StdTypeId>` from `src/lib.rs`. -/
def TypeId.std : TypeId → Option StdTypeId
  | .Std t => some t
  | _ => none

/-- `pub fn non_static(&self) -> Option<NonStaticTypeId>` from `src/lib.rs`. -/
def TypeId.non_static : TypeId → Option NonStaticTypeId
  | .NonStatic t => some t
  | _ => none

/-- `pub fn type_name<T>() -> &'static str { pretty(std::any::type_name::<T>()) }`. -/
def type_name (T : RustType) : Str := pretty T.path

/-! ## `Ty` (`src/lib.rs`) -/

/-- `pub struct Ty { id: TypeId, name: fn() -> &'static str }`. -/
structure Ty where
  id : TypeId
  name : Unit → Str

/-- `Ty::of::<T>()`: the `Std` identity plus the lazy name accessor
`type_name::<T>` (`T` must be `'static`, a compile-time constraint). -/
def Ty.of (T : RustType) : Ty :=
  { id := TypeId.of T, name := fun _ => type_name T }

/-- `Ty::of_every::<T>()`: the `NonStatic` identity plus the lazy name
accessor `type_name::<T>`. -/
def Ty.of_every (addr : RustType → Nat) (T : RustType) : Ty :=
  { id := TypeId.of_every addr T, name := fun _ => type_name T }

/-- `impl PartialEq for Ty`: `self.id == other.id`.  The name accessor
is not consulted. -/
def Ty.beq (a b : Ty) : Bool := a.id.beq b.id

/-- `impl Ord for Ty`: `self.id.cmp(&other.id)`.  The name accessor is
not consulted. -/
def Ty.cmp (a b : Ty) : Ordering := a.id.cmp b.id

/-- `impl Hash for Ty`: hashes `self.id` and nothing else. -/
def Ty.hashData (t : Ty) : List Nat := t.id.hashData

/-- `pub fn name(&self) -> &'static str { (self.name)() }`. -/
def Ty.callName (t : Ty) : Str := t.name ()

/-! ## `LTy` (`src/lib.rs`) -/

/-- `std::alloc::Layout`: size and alignment. -/
structure Layout where
  size : Nat
  align : Nat
deriving DecidableEq, Repr

/-- `Layout::new::<T>()`: the static layout of `T`. -/
def Layout.new (T : RustType) : Layout := ⟨T.size, T.align⟩

/-- `pub struct LTy { ty: Ty, layout: Layout }` with
`derive(Clone, Eq, PartialEq)`. -/
structure LTy where
  ty : Ty
  layout : Layout

/-- `LTy::of::<T>()`. -/
def LTy.of (T : RustType) : LTy :=
  { ty := Ty.of T, layout := Layout.new T }

/-- `LTy::of_every::<T>()`. -/
def LTy.of_every (addr : RustType → Nat) (T : RustType) : LTy :=
  { ty := Ty.of_every addr T, layout := Layout.new T }

/-- The derived `PartialEq` on `LTy`: fieldwise, `ty` through its own
custom identity-only equality and `layout` through structural equality
of size and alignment.  The source derives no `Ord`, `PartialOrd` or
`Hash` for `LTy`, and the embedding accordingly defines none. -/
def LTy.beq (a b : LTy) : Bool := a.ty.beq b.ty && a.layout == b.layout

/-! ## `AnyDebug` (`src/any_debug.rs`) -/

/-- The blanket `impl<X: mopa::Any + Debug + Send + Sync> AnyDebug for X`:
its `get_ty` returns `Ty::of::<Self>()` at the implementing type. -/
def anyDebugGetTy (Self : RustType) : Ty := Ty.of Self

/-- The default `AnyDebug::type_name` method: `type_name::<Self>()`. -/
def anyDebugTypeName (Self : RustType) : Str := type_name Self

/-- A `dyn AnyDebug` trait object: an erased value carrying (through
its vtable) its true concrete type, and its payload, abstracted as a
number.  A method call on the trait object dispatches dynamically to
the blanket impl at the concrete type. -/
structure DynAnyDebug where
  concrete : RustType
  value : Nat

/-- Dynamic dispatch of `get_ty` on a `dyn AnyDebug` trait object:
reaches the blanket impl of the value's true concrete type. -/
def DynAnyDebug.get_ty (v : DynAnyDebug) : Ty := anyDebugGetTy v.concrete

/-- `Box<dyn AnyDebug>`: an owning indirection around the trait object. -/
structure BoxDynAnyDebug where
  boxed : DynAnyDebug

/-- `*this`: dereferencing the box yields the trait object it owns. -/
def BoxDynAnyDebug.deref (b : BoxDynAnyDebug) : DynAnyDebug := b.boxed

/-- Modelled from the spec: the downcast operation generated by the
third-party `mopafy!(AnyDebug)` expansion, whose source is not part of
this repository.  Per the spec, downcasting an erased handle to a
candidate concrete type `T` succeeds with the original value exactly
when the handle's true concrete type identity equals `Ty::of::<T>()`,
and otherwise reports an explicit absence. -/
def DynAnyDebug.downcast (v : DynAnyDebug) (T : RustType) : Option Nat :=
  if (v.get_ty).beq (Ty.of T) then some v.value else none

/-! ## Concrete sample types used by witnesses -/

/-- The type `i32` of one concrete build. -/
def rustI32 : RustType := ⟨0, "i32".toList, 4, 4⟩

/-- The type `u8` of the same build. -/
def rustU8 : RustType := ⟨1, "u8".toList, 1, 1⟩

/-- The wrapper type `Box<dyn AnyDebug>` of the same build. -/
def rustBoxDynAnyDebug : RustType :=
  ⟨2, "alloc::boxed::Box<dyn ezty::AnyDebug>".toList, 8, 8⟩

/-- An `i32` value erased behind `Box<dyn AnyDebug>`. -/
def sampleBox : BoxDynAnyDebug := ⟨⟨rustI32, 0⟩⟩

/-- Two `LTy` values sharing the `i32` identity but carrying different
layouts. -/
def ltySameIdA : LTy := { ty := Ty.of rustI32, layout := ⟨4, 4⟩ }

/-- The second of the pair: same identity, different layout. -/
def ltySameIdB : LTy := { ty := Ty.of rustI32, layout := ⟨8, 8⟩ }

/-! ## Helper lemmas -/

/-- Equality of `std::any::TypeId` coincides with propositional equality. -/
theorem stdTypeId_beq_iff (a b : StdTypeId) : StdTypeId.beq a b = true ↔ a = b := by
  cases a; cases b; simp [StdTypeId.beq]

/-- Derived equality on `NonStaticTypeId` coincides with propositional equality. -/
theorem nonStaticTypeId_beq_iff (a b : NonStaticTypeId) :
    NonStaticTypeId.beq a b = true ↔ a = b := by
  cases a; cases b; simp [NonStaticTypeId.beq]

/-- Derived equality on `TypeId` coincides with propositional equality. -/
theorem typeId_beq_iff (a b : TypeId) : TypeId.beq a b = true ↔ a = b := by
  cases a <;> cases b <;> simp [TypeId.beq, stdTypeId_beq_iff, nonStaticTypeId_beq_iff]

/-- Derived ordering on `TypeId` is reflexive. -/
theorem typeId_cmp_self (a : TypeId) : TypeId.cmp a a = Ordering.eq := by
  cases a <;> simp [TypeId.cmp, StdTypeId.cmp, NonStaticTypeId.cmp, Nat.compare_eq_eq]

/-- The loop of `pretty` returns the remainder for the first table pair
for which both conditions hold, and the input unchanged otherwise. -/
theorem prettyGo_eq_find (l : List (Str × Str)) (name : Str) :
    prettyGo l name =
      match l.find? (matchesPair name) with
      | some p => name.drop p.1.length
      | none => name := by
  induction l with
  | nil => rfl
  | cons p rest ih =>
    obtain ⟨bad, good⟩ := p
    by_cases h1 : bad.isPrefixOf name
    · by_cases h2 : good.isPrefixOf (name.drop bad.length)
      · simp [prettyGo, List.find?, matchesPair, h1, h2]
      · simp only [prettyGo, List.find?, matchesPair, h1, h2]
        simp [h1, h2, ih]
    · simp only [prettyGo, List.find?, matchesPair, h1]
      simp [h1, ih]

/-! ## Claims -/

/-- C1: equality, ordering and hashing of `Ty` depend only on the wrapped
`TypeId`: two `Ty` values are equal exactly when their identities are
equal, the ordering of two `Ty` values is the ordering of their
identities, the hashed data of a `Ty` is that of its identity alone, and
the stored name accessor never influences any comparison or hash. -/
theorem ty_eq_ord_hash_delegate_to_id (t u : Ty) :
    (Ty.beq t u = true ↔ t.id = u.id) ∧
    Ty.cmp t u = TypeId.cmp t.id u.id ∧
    Ty.hashData t = TypeId.hashData t.id ∧
    (∀ n n' : Unit → Str,
      Ty.beq ⟨t.id, n⟩ ⟨t.id, n'⟩ = true ∧
      Ty.cmp ⟨t.id, n⟩ ⟨t.id, n'⟩ = Ordering.eq ∧
      Ty.hashData ⟨t.id, n⟩ = Ty.hashData ⟨t.id, n'⟩) := by
  refine ⟨?_, rfl, rfl, ?_⟩
  · simpa [Ty.beq] using typeId_beq_iff t.id u.id
  · intro n n'
    exact ⟨by simp [Ty.beq, typeId_beq_iff], by simp [Ty.cmp, typeId_cmp_self], rfl⟩

/-- C2: two separate calls of `Ty::of::<T>()` for the same type compare
equal, order as equal, and feed identical data to the hasher; the name
accessor, a pure function the construction merely stores, plays no part
in this. -/
theorem ty_of_deterministic (T : RustType) :
    Ty.beq (Ty.of T) (Ty.of T) = true ∧
    Ty.cmp (Ty.of T) (Ty.of T) = Ordering.eq ∧
    Ty.hashData (Ty.of T) = Ty.hashData (Ty.of T) := by
  refine ⟨?_, ?_, rfl⟩
  · simp [Ty.beq, typeId_beq_iff]
  · simp [Ty.cmp, typeId_cmp_self]

/-- C3: for two distinct `'static` types of one build — modelled as
types with distinct `std::any::TypeId` keys, which is exactly what the
standard library guarantees within a single build — `Ty::of` yields
handles that compare unequal and feed different data to the hasher. -/
theorem ty_of_distinct_types_ne (A B : RustType) (h : A.key ≠ B.key) :
    Ty.beq (Ty.of A) (Ty.of B) = false ∧
    Ty.hashData (Ty.of A) ≠ Ty.hashData (Ty.of B) := by
  constructor
  · simp [Ty.beq, Ty.of, TypeId.of, TypeId.beq, StdTypeId.of, StdTypeId.beq, h]
  · simp [Ty.hashData, Ty.of, TypeId.of, TypeId.hashData, StdTypeId.of, StdTypeId.hashData, h]

/-- Witness for C3 at the concrete types `i32` and `u8`. -/
theorem ty_of_distinct_types_ne_witness :
    rustI32.key ≠ rustU8.key ∧
    (Ty.beq (Ty.of rustI32) (Ty.of rustU8) = false ∧
      Ty.hashData (Ty.of rustI32) ≠ Ty.hashData (Ty.of rustU8)) :=
  ⟨by decide, ty_of_distinct_types_ne rustI32 rustU8 (by decide)⟩

/-- C4: for every type and every link-time address assignment,
`Ty::of::<T>()` and `Ty::of_every::<T>()` never compare equal, never
order as equal, and never feed the same data to the hasher: the `Std`
and `NonStatic` variants are disjoint identity spaces. -/
theorem ty_of_ne_ty_of_every (addr : RustType → Nat) (T : RustType) :
    Ty.beq (Ty.of T) (Ty.of_every addr T) = false ∧
    Ty.cmp (Ty.of T) (Ty.of_every addr T) ≠ Ordering.eq ∧
    Ty.hashData (Ty.of T) ≠ Ty.hashData (Ty.of_every addr T) := by
  refine ⟨rfl, ?_, ?_⟩
  · simp [Ty.cmp, Ty.of, Ty.of_every, TypeId.of, TypeId.of_every, TypeId.cmp]
  · simp [Ty.hashData, Ty.of, Ty.of_every, TypeId.of, TypeId.of_every, TypeId.hashData]

/-- C5: `TypeId::std` returns the wrapped standard identity on a `Std`
variant and `none` on a `NonStatic` variant; `TypeId::non_static`
returns the wrapped non-static identity on a `NonStatic` variant and
`none` on a `Std` variant; both accessors are total and fabricate no
default. -/
theorem typeid_variant_accessors (s : StdTypeId) (n : NonStaticTypeId) :
    (TypeId.Std s).std = some s ∧
    (TypeId.Std s).non_static = none ∧
    (TypeId.NonStatic n).non_static = some n ∧
    (TypeId.NonStatic n).std = none :=
  ⟨rfl, rfl, rfl, rfl⟩

/-- C6: `pretty` computes exactly the specification's description — the
input with the long path stripped for the first table pair whose long
path is a literal prefix of the input and whose remainder begins with
the pair's alias — and when no pair satisfies both conditions it
returns the input unchanged. -/
theorem pretty_matches_spec (name : Str) :
    pretty name = prettySpec name ∧
    (prettyExpr.find? (matchesPair name) = none → pretty name = name) := by
  constructor
  · exact prettyGo_eq_find prettyExpr name
  · intro h
    show prettyGo prettyExpr name = name
    rw [prettyGo_eq_find prettyExpr name, h]

/-- Witness for C6 at the unrecognized name `i32`. -/
theorem pretty_matches_spec_witness :
    prettyExpr.find? (matchesPair "i32".toList) = none ∧
    pretty "i32".toList = "i32".toList :=
  ⟨by decide, (pretty_matches_spec "i32".toList).2 (by decide)⟩

/-- C7: evaluating `pretty` at the claimed inputs: the flat case gives
`"Vec<i32>"` as claimed, but the nested case gives
`"Vec<alloc::vec::Vec<u8>>"`, not the `"Vec<Vec<u8>>"` the claim and the
repository's own `less_pretty` test assert — only the outermost long
path is stripped, never paths inside generic parameters. -/
theorem pretty_nested_vec_divergence :
    pretty "alloc::vec::Vec<i32>".toList = "Vec<i32>".toList ∧
    pretty "alloc::vec::Vec<alloc::vec::Vec<u8>>".toList =
      "Vec<alloc::vec::Vec<u8>>".toList ∧
    pretty "alloc::vec::Vec<alloc::vec::Vec<u8>>".toList ≠ "Vec<Vec<u8>>".toList := by
  refine ⟨by decide, by decide, by decide⟩

/-- C8: `get_ty` dispatched on the trait object obtained by
dereferencing a `Box<dyn AnyDebug>` reports the identity of the inner
value's true concrete type, and — whenever the wrapper type's identity
differs from the inner type's — never the wrapper's identity. -/
theorem get_ty_reports_inner_concrete_type (b : BoxDynAnyDebug) (wrapper : RustType)
    (h : wrapper.key ≠ b.boxed.concrete.key) :
    (BoxDynAnyDebug.deref b).get_ty = Ty.of b.boxed.concrete ∧
    Ty.beq ((BoxDynAnyDebug.deref b).get_ty) (Ty.of wrapper) = false := by
  refine ⟨rfl, ?_⟩
  simp [Ty.beq, DynAnyDebug.get_ty, anyDebugGetTy, BoxDynAnyDebug.deref, Ty.of,
    TypeId.of, TypeId.beq, StdTypeId.of, StdTypeId.beq, h]
  omega

/-- Witness for C8: an `i32` behind `Box<dyn AnyDebug>`. -/
theorem get_ty_reports_inner_concrete_type_witness :
    rustBoxDynAnyDebug.key ≠ sampleBox.boxed.concrete.key ∧
    ((BoxDynAnyDebug.deref sampleBox).get_ty = Ty.of sampleBox.boxed.concrete ∧
      Ty.beq ((BoxDynAnyDebug.deref sampleBox).get_ty) (Ty.of rustBoxDynAnyDebug) = false) :=
  ⟨by decide, get_ty_reports_inner_concrete_type sampleBox rustBoxDynAnyDebug (by decide)⟩

/-- C9: downcasting an erased handle to a candidate type `T` succeeds
with the original value exactly when the handle's true concrete type
identity equals `Ty::of::<T>()`, returns an explicit `none` exactly on
identity mismatch, and the identity match holds exactly when the
concrete type and the candidate share their standard identity; the
operation is total, so it can neither crash nor misinterpret memory. -/
theorem downcast_iff_ty_match (v : DynAnyDebug) (T : RustType) :
    (DynAnyDebug.downcast v T = some v.value ↔ Ty.beq v.get_ty (Ty.of T) = true) ∧
    (DynAnyDebug.downcast v T = none ↔ Ty.beq v.get_ty (Ty.of T) = false) ∧
    (Ty.beq v.get_ty (Ty.of T) = true ↔ v.concrete.key = T.key) := by
  refine ⟨?_, ?_, ?_⟩
  · constructor
    · intro h
      by_contra hb
      simp [DynAnyDebug.downcast, Bool.not_eq_true] at h hb
      simp [hb] at h
    · intro h; simp [DynAnyDebug.downcast, h]
  · constructor
    · intro h
      by_contra hb
      simp [Bool.not_eq_false] at hb
      simp [DynAnyDebug.downcast, hb] at h
    · intro h; simp [DynAnyDebug.downcast, h]
  · simp [Ty.beq, DynAnyDebug.get_ty, anyDebugGetTy, Ty.of, TypeId.of, TypeId.beq,
      StdTypeId.of, StdTypeId.beq]

/-- C10: the derived equality of `LTy` is structural over both fields —
two `LTy` values are equal exactly when their `Ty` components share
their identity (the name accessor being irrelevant) and their layouts
coincide — so two handles with the same identity but different layouts
are unequal. -/
theorem lty_eq_structural (a b : LTy) :
    (LTy.beq a b = true ↔ a.ty.id = b.ty.id ∧ a.layout = b.layout) ∧
    (a.layout ≠ b.layout → LTy.beq a b = false) := by
  have key : LTy.beq a b = true ↔ a.ty.id = b.ty.id ∧ a.layout = b.layout := by
    simp [LTy.beq, Ty.beq, typeId_beq_iff]
  refine ⟨key, ?_⟩
  intro hl
  by_contra hb
  simp [Bool.not_eq_false] at hb
  exact hl (key.mp hb).2

/-- Witness for C10: two handles with the `i32` identity and different
layouts are unequal. -/
theorem lty_eq_structural_witness :
    ltySameIdA.layout ≠ ltySameIdB.layout ∧
    LTy.beq ltySameIdA ltySameIdB = false :=
  ⟨by decide, (lty_eq_structural ltySameIdA ltySameIdB).2 (by decide)⟩

end Ezty
